import Mathlib

/-!
# Verification of the CV prompts pipeline (`src/controllers/promptsController.ts`)

This file shallowly embeds the text-processing pipeline of the prompts
controller: the repair step (`collapseLetterGaps` plus removal of whitespace
before punctuation), the markdown structurer (`enhanceMarkdown` with its line
classifiers `isSectionHeader`, `isJobTitle`, `isCompanyName`,
`hasDatePattern`), the section extractor (`extractSections`), the prompt
generator (`generateIntelligentPrompts`), and the `generatePrompts` HTTP
handler's state machine over upload records.

Strings are modelled as `List Char` (the `Char`s of the JavaScript string;
all inputs of interest are ASCII, where one UTF-16 code unit is one `Char`),
with `String` wrappers mirroring the source function names.  JavaScript
regular expressions are embedded by a small regex AST (`RE`) together with a
backtracking matcher that implements leftmost, greedy, non-overlapping global
matching; each regex literal of the source is transcribed into that AST.  The
two regexes of the repair step are additionally embedded directly as
single-pass character scanners (`collapseGo`, `punctGo`), which implement the
same leftmost greedy non-overlapping replacement semantics and support the
inductive proofs about `repair`.
-/

/-! ## Character classes

`isWs` is the JavaScript `\s` class (the code points matched by `\s` in
ECMAScript: tab, LF, VT, FF, CR, space, NBSP, Ogham space mark, the
U+2000–U+200A range, LS, PS, NNBSP, MMSP, ideographic space, BOM).
`isAlnum` is the class `[A-Za-z0-9]` of `collapseLetterGaps`'s regex, and
`isPunctCh` the class `[,.;:!?]` of the punctuation-whitespace regex. -/

def isWs (c : Char) : Bool :=
  decide (c.toNat = 32 ∨ c.toNat = 9 ∨ c.toNat = 10 ∨ c.toNat = 11 ∨
    c.toNat = 12 ∨ c.toNat = 13 ∨ c.toNat = 160 ∨ c.toNat = 5760 ∨
    (8192 ≤ c.toNat ∧ c.toNat ≤ 8202) ∨ c.toNat = 8232 ∨ c.toNat = 8233 ∨
    c.toNat = 8239 ∨ c.toNat = 8287 ∨ c.toNat = 12288 ∨ c.toNat = 65279)

def isAlnum (c : Char) : Bool :=
  decide ((65 ≤ c.toNat ∧ c.toNat ≤ 90) ∨ (97 ≤ c.toNat ∧ c.toNat ≤ 122) ∨
    (48 ≤ c.toNat ∧ c.toNat ≤ 57))

def isPunctCh (c : Char) : Bool :=
  decide (c.toNat = 44 ∨ c.toNat = 46 ∨ c.toNat = 59 ∨ c.toNat = 58 ∨
    c.toNat = 33 ∨ c.toNat = 63)

/-- `\w`, the word-character class `[A-Za-z0-9_]` (used by `\b`). -/
def isWordChar (c : Char) : Bool := isAlnum c || decide (c.toNat = 95)

/-- ASCII lower-casing, the effect of JavaScript `toLowerCase()` on the
ASCII range (all inputs considered here are ASCII). -/
def asciiLower (c : Char) : Char :=
  if 65 ≤ c.toNat ∧ c.toNat ≤ 90 then Char.ofNat (c.toNat + 32) else c

/-- ASCII upper-casing, the effect of JavaScript `toUpperCase()` on the
ASCII range. -/
def asciiUpper (c : Char) : Char :=
  if 97 ≤ c.toNat ∧ c.toNat ≤ 122 then Char.ofNat (c.toNat - 32) else c

/-! ## Generic string helpers (JavaScript `trim`, `split("\n")`,
`includes`, `startsWith`, `toLowerCase`, `toUpperCase`) -/

/-- JavaScript `String.prototype.trim()`: strip `\s` characters from both
ends. -/
def trimL (l : List Char) : List Char :=
  ((l.dropWhile isWs).reverse.dropWhile isWs).reverse

/-- JavaScript `s.split("\n")`. -/
def splitNl : List Char → List (List Char)
  | [] => [[]]
  | c :: r =>
    if c = '\n' then [] :: splitNl r
    else
      match splitNl r with
      | [] => [[c]]
      | h :: t => (c :: h) :: t

/-- JavaScript `arr.join("\n")`. -/
def joinNl : List (List Char) → List Char
  | [] => []
  | [l] => l
  | l :: r => l ++ '\n' :: joinNl r

/-- Does `l` start with `p`? (JavaScript `startsWith`.) -/
def startsWithL : List Char → List Char → Bool
  | _, [] => true
  | [], _ :: _ => false
  | c :: r, p :: ps => c = p && startsWithL r ps

/-- Does `l` contain `sub` as a contiguous substring? (JavaScript
`includes`.) -/
def hasSubstr : List Char → List Char → Bool
  | l, sub =>
    startsWithL l sub ||
      match l with
      | [] => false
      | _ :: t => hasSubstr t sub

def lowerL (l : List Char) : List Char := l.map asciiLower

def upperL (l : List Char) : List Char := l.map asciiUpper

/-! ## The repair step

```
function collapseLetterGaps(s: string): string {
  let prev: string;
  do {
    prev = s;
    s = s.replace(/([A-Za-z0-9])\s+([A-Za-z0-9])/g, "$1$2");
  } while (s !== prev);
  return s;
}
const preprocessed = collapseLetterGaps(rawMarkdown);
const cleaned = preprocessed.replace(/\s+([,.;:!?])/g, "$1");
```

`collapseGo` is one global pass of
`s.replace(/([A-Za-z0-9])\s+([A-Za-z0-9])/g, "$1$2")`, scanning left to
right.  The pending state `some (a, ws)` records that an alphanumeric `a`
(a candidate `$1`, not itself consumed by an earlier match) has been read,
followed so far exactly by the whitespace run `ws`.  A match fires when the
next character is alphanumeric and `ws` is nonempty; the two alphanumerics
are emitted glued together and — as in JavaScript, where scanning resumes at
`lastIndex` after the match — the second one cannot start a new match.
(Backtracking inside `\s+` never helps: a shorter whitespace run is followed
by a whitespace character, which `[A-Za-z0-9]` rejects, so the greedy run is
the only candidate.) -/

def collapseGo : Option (Char × List Char) → List Char → List Char
  | none, [] => []
  | some (a, ws), [] => a :: ws
  | none, c :: r =>
    if isAlnum c then collapseGo (some (c, [])) r
    else c :: collapseGo none r
  | some (a, ws), c :: r =>
    if isAlnum c then
      if ws = [] then a :: collapseGo (some (c, [])) r
      else a :: c :: collapseGo none r
    else if isWs c then collapseGo (some (a, ws ++ [c])) r
    else a :: ws ++ c :: collapseGo none r

/-- One call of `s.replace(/([A-Za-z0-9])\s+([A-Za-z0-9])/g, "$1$2")`. -/
def collapseOnce (l : List Char) : List Char := collapseGo none l

/-- The `do … while (s !== prev)` loop of `collapseLetterGaps`, with explicit
fuel.  Each productive pass strictly shrinks the string, so `l.length` passes
always reach the fixed point (`collapseIter_fixed` below). -/
def collapseIter : Nat → List Char → List Char
  | 0, l => l
  | n + 1, l =>
    let l' := collapseOnce l
    if l' = l then l else collapseIter n l'

def collapseLetterGapsL (l : List Char) : List Char := collapseIter l.length l

/-- One global pass of `s.replace(/\s+([,.;:!?])/g, "$1")`: the pending
state is the whitespace run read so far; when the next character is one of
`,.;:!?` the run is dropped (the match `\s+punct` is replaced by the
punctuation character alone), otherwise it is flushed unchanged. -/
def punctGo : List Char → List Char → List Char
  | ws, [] => ws
  | ws, c :: r =>
    if isWs c then punctGo (ws ++ [c]) r
    else if isPunctCh c then c :: punctGo [] r
    else ws ++ c :: punctGo [] r

/-- The repair step of the pipeline: `collapseLetterGaps` followed by
removal of whitespace before punctuation. -/
def repairL (l : List Char) : List Char := punctGo [] (collapseLetterGapsL l)

def collapseLetterGaps (s : String) : String := ⟨collapseLetterGapsL s.data⟩

def repair (s : String) : String := ⟨repairL s.data⟩

/-! ## Scanners characterising the two repair regexes

`gapScan` decides whether the input contains an occurrence of
`[A-Za-z0-9]\s+[A-Za-z0-9]` (a "letter gap"): state `s1` = the previous
character was alphanumeric, `s2` = an alphanumeric has been followed by one
or more whitespace characters, `s0` = anything else.  `pgapScan` decides
whether the input contains an occurrence of `\s+[,.;:!?]` (whitespace before
punctuation).  These are used to prove that `repair` reaches a fixed point. -/

inductive GapSt where
  | s0
  | s1
  | s2
  deriving DecidableEq

def gapScan : GapSt → List Char → Bool
  | _, [] => false
  | st, c :: r =>
    if isAlnum c then
      match st with
      | .s2 => true
      | _ => gapScan .s1 r
    else if isWs c then
      gapScan (match st with | .s0 => GapSt.s0 | _ => GapSt.s2) r
    else gapScan .s0 r

/-- Does `l` contain a match of `/([A-Za-z0-9])\s+([A-Za-z0-9])/`? -/
def hasGapB (l : List Char) : Bool := gapScan .s0 l

def pgapScan : Bool → List Char → Bool
  | _, [] => false
  | sawWs, c :: r =>
    if isWs c then pgapScan true r
    else if isPunctCh c then sawWs || pgapScan false r
    else pgapScan false r

/-- Does `l` contain a match of `/\s+([,.;:!?])/`? -/
def hasPgapB (l : List Char) : Bool := pgapScan false l

/-- The scanner state corresponding to a pending state of `collapseGo`. -/
def stOf : Option (Char × List Char) → GapSt
  | none => .s0
  | some (_, []) => .s1
  | some (_, _ :: _) => .s2

/-- The input represented by a configuration of `collapseGo`: the pending
characters followed by the unread rest. -/
def confList : Option (Char × List Char) → List Char → List Char
  | none, l => l
  | some (a, ws), l => a :: ws ++ l

def stRank : GapSt → Nat
  | .s0 => 0
  | .s1 => 1
  | .s2 => 2

/-- `WsDel m l`: `m` is obtained from `l` by deleting whitespace characters
(both repair passes only ever delete whitespace). -/
inductive WsDel : List Char → List Char → Prop where
  | nil : WsDel [] []
  | keep (c : Char) {m l : List Char} : WsDel m l → WsDel (c :: m) (c :: l)
  | del (c : Char) {m l : List Char} : isWs c = true → WsDel m l → WsDel m (c :: l)

/-! ## A small regex engine

JavaScript regex literals of the source are transcribed into the AST `RE`
and run by a backtracking matcher.  `matchRe` returns the list of possible
outcomes `(rest, prev, captures)` of matching `re` at the current position,
in priority order (greedy quantifiers try the longer alternative first, as
in ECMAScript); the head of the list is the match JavaScript selects.
`prev` is the character immediately before the current position (`none` at
the start of the input), used by the `^` anchor (multiline flag) and the
word-boundary assertion `\b`.  Case-insensitive matching (`/i`) folds both
sides through ASCII case conversion.  The fuel argument bounds recursion
depth; `matchFuel` below always suffices because every `star` iteration is
required to consume at least one character. -/

inductive RE where
  | eps
  | chr (c : Char)
  | cls (ranges : List (Char × Char))
  | seq (a b : RE)
  | alt (a b : RE)
  | star (a : RE)
  | opt (a : RE)
  | grp (i : Nat) (a : RE)
  | bol
  | wb

abbrev Caps := List (Nat × List Char)

def inRanges (ranges : List (Char × Char)) (c : Char) : Bool :=
  ranges.any fun p => decide (p.1.toNat ≤ c.toNat ∧ c.toNat ≤ p.2.toNat)

def reSize : RE → Nat
  | .eps | .chr _ | .cls _ | .bol | .wb => 1
  | .seq a b | .alt a b => reSize a + reSize b + 1
  | .star a | .opt a | .grp _ a => reSize a + 1

def matchRe (ci : Bool) : Nat → RE → Option Char → List Char → Caps →
    List (List Char × Option Char × Caps)
  | 0, _, _, _, _ => []
  | fuel + 1, re, prev, l, caps =>
    match re with
    | .eps => [(l, prev, caps)]
    | .chr c =>
      match l with
      | [] => []
      | x :: r =>
        if x = c || (ci && asciiLower x = asciiLower c) then [(r, some x, caps)] else []
    | .cls ranges =>
      match l with
      | [] => []
      | x :: r =>
        if inRanges ranges x ||
            (ci && (inRanges ranges (asciiLower x) || inRanges ranges (asciiUpper x))) then
          [(r, some x, caps)]
        else []
    | .seq a b =>
      (matchRe ci fuel a prev l caps).flatMap fun s => matchRe ci fuel b s.2.1 s.1 s.2.2
    | .alt a b => matchRe ci fuel a prev l caps ++ matchRe ci fuel b prev l caps
    | .star a =>
      ((matchRe ci fuel a prev l caps).flatMap fun s =>
        if s.1.length < l.length then matchRe ci fuel (.star a) s.2.1 s.1 s.2.2 else [s]) ++
        [(l, prev, caps)]
    | .opt a => matchRe ci fuel a prev l caps ++ [(l, prev, caps)]
    | .grp i a =>
      (matchRe ci fuel a prev l caps).map fun s =>
        (s.1, s.2.1, (i, l.take (l.length - s.1.length)) :: s.2.2)
    | .bol => if prev = none ∨ prev = some '\n' then [(l, prev, caps)] else []
    | .wb =>
      let pw := match prev with | none => false | some p => isWordChar p
      let nw := match l with | [] => false | x :: _ => isWordChar x
      if pw ≠ nw then [(l, prev, caps)] else []

def matchFuel (re : RE) (l : List Char) : Nat := (l.length + 2) * (reSize re + 2)

/-- `re.test(l)`: does a match start at some position of `l`?  (`RegExp
.prototype.test` / `String.prototype.search` semantics: positions are tried
left to right.) -/
def testGo (ci : Bool) (re : RE) : Nat → Option Char → List Char → Bool
  | 0, _, _ => false
  | fuel + 1, prev, l =>
    !(matchRe ci (matchFuel re l) re prev l []).isEmpty ||
      match l with
      | [] => false
      | c :: r => testGo ci re fuel (some c) r

def reTest (ci : Bool) (re : RE) (l : List Char) : Bool :=
  testGo ci re (l.length + 1) none l

/-- Replacement template: literal pieces and `$i` group references. -/
inductive Tmpl where
  | lit (s : List Char)
  | ref (i : Nat)

def applyTmpl (caps : Caps) : List Tmpl → List Char
  | [] => []
  | .lit s :: t => s ++ applyTmpl caps t
  | .ref i :: t => (caps.lookup i).getD [] ++ applyTmpl caps t

/-- Global replacement (`String.prototype.replace` with the `g` flag):
scan positions left to right; at a match, emit the instantiated template and
resume right after the matched text; otherwise copy one character.  (All
regexes replaced globally in this code base match at least one character; a
zero-width match is conservatively treated as no match.) -/
def replaceGo (ci : Bool) (re : RE) (tmpl : List Tmpl) :
    Nat → Option Char → List Char → List Char
  | 0, _, l => l
  | fuel + 1, prev, l =>
    match matchRe ci (matchFuel re l) re prev l [] with
    | s :: _ =>
      if s.1.length < l.length then
        applyTmpl s.2.2 tmpl ++ replaceGo ci re tmpl fuel s.2.1 s.1
      else
        match l with
        | [] => []
        | c :: r => c :: replaceGo ci re tmpl fuel (some c) r
    | [] =>
      match l with
      | [] => []
      | c :: r => c :: replaceGo ci re tmpl fuel (some c) r

def replaceRe (ci : Bool) (re : RE) (tmpl : List Tmpl) (l : List Char) : List Char :=
  replaceGo ci re tmpl (l.length + 1) none l

/-! ### AST builders -/

def rStr (s : String) : RE := s.data.foldr (fun c acc => RE.seq (RE.chr c) acc) RE.eps

def rAlts : List RE → RE
  | [] => RE.eps
  | [r] => r
  | r :: rs => RE.alt r (rAlts rs)

/-- `a+` (greedy). -/
def rPlus (a : RE) : RE := RE.seq a (RE.star a)

/-- `a{n}`: exactly `n` copies. -/
def rRep (a : RE) : Nat → RE
  | 0 => RE.eps
  | n + 1 => RE.seq a (rRep a n)

/-- Chain of `extra` optional copies of `a` (greedy, longest first). -/
def rOptChain (a : RE) : Nat → RE
  | 0 => RE.eps
  | n + 1 => RE.opt (RE.seq a (rOptChain a n))

/-- `a{min,min+extra}` (greedy). -/
def rRepRange (a : RE) (min extra : Nat) : RE := RE.seq (rRep a min) (rOptChain a extra)

/-! ### Character classes of the source regexes -/

/-- Ranges of the JavaScript `\s` class (same code points as `isWs`). -/
def wsRanges : List (Char × Char) :=
  [('\t', '\r'), (' ', ' '), ('\u00A0', '\u00A0'), ('\u1680', '\u1680'),
   ('\u2000', '\u200A'), ('\u2028', '\u2029'), ('\u202F', '\u202F'),
   ('\u205F', '\u205F'), ('\u3000', '\u3000'), ('\uFEFF', '\uFEFF')]

def rWs : RE := RE.cls wsRanges

def rDigit : RE := RE.cls [('0', '9')]

/-- `\w` = `[A-Za-z0-9_]`. -/
def rWord : RE := RE.cls [('A', 'Z'), ('a', 'z'), ('0', '9'), ('_', '_')]

/-- `[-–]` (hyphen or en dash), as used in the date patterns. -/
def rDash : RE := RE.cls [('-', '-'), ('–', '–')]

/-! ## The regexes of `enhanceMarkdown`

Each definition transcribes one regex literal of the source, in the order
they are applied:

```
.replace(/\n{3,}/g, "\n\n")
.replace(/^[\s]*[•·▪▫▸▹‣⁃]\s*/gm, "- ")
.replace(/^[\s]*(\d+)[\.\)]\s*/gm, "$1. ")
.replace(/^#+\s+/gm, (match) => match.replace(/\s+/g, " "))
.replace(/([a-zA-Z0-9._%+-]+@[a-zA-Z0-9.-]+\.[a-zA-Z]{2,})/g, "**$1**")
.replace(/(\+\d{1,3}[\s\-]?\d{1,4}[\s\-]?\d{1,4}[\s\-]?\d{1,9})/g, "**$1**")
.replace(/(\d{4}[\s\-–]+\d{4})/g, "*$1*")
.replace(/(\d{4}[\s\-–]+(present|current))/gi, "*$1*")
.replace(/\s+/g, " ")
.replace(/\n\s+/g, "\n")
.trim()
```
-/

/-- `/\n{3,}/`. -/
def reNl3 : RE := RE.seq (rRep (RE.chr '\n') 3) (RE.star (RE.chr '\n'))

/-- The bullet-glyph class `[•·▪▫▸▹‣⁃]`. -/
def bulletRanges : List (Char × Char) :=
  [('•', '•'), ('·', '·'), ('▪', '▪'), ('▫', '▫'),
   ('▸', '▸'), ('▹', '▹'), ('‣', '‣'), ('⁃', '⁃')]

/-- `/^[\s]*[•·▪▫▸▹‣⁃]\s*/m`. -/
def reBullet : RE :=
  RE.seq RE.bol (RE.seq (RE.star rWs) (RE.seq (RE.cls bulletRanges) (RE.star rWs)))

/-- `/^[\s]*(\d+)[\.\)]\s*/m`. -/
def reNum : RE :=
  RE.seq RE.bol (RE.seq (RE.star rWs)
    (RE.seq (RE.grp 1 (rPlus rDigit)) (RE.seq (RE.cls [('.', '.'), (')', ')')]) (RE.star rWs))))

/-- `/^#+\s+/m`, whose functional replacement
`(match) => match.replace(/\s+/g, " ")` keeps the `#` run and collapses the
trailing whitespace run to one space; this equals replacing `/^(#+)\s+/m`
by `"$1 "`. -/
def reHdr : RE := RE.seq RE.bol (RE.seq (RE.grp 1 (rPlus (RE.chr '#'))) (rPlus rWs))

/-- `/([a-zA-Z0-9._%+-]+@[a-zA-Z0-9.-]+\.[a-zA-Z]{2,})/`. -/
def reEmail : RE :=
  RE.grp 1 (RE.seq
    (rPlus (RE.cls [('a', 'z'), ('A', 'Z'), ('0', '9'), ('.', '.'), ('_', '_'),
      ('%', '%'), ('+', '+'), ('-', '-')]))
    (RE.seq (RE.chr '@')
      (RE.seq (rPlus (RE.cls [('a', 'z'), ('A', 'Z'), ('0', '9'), ('.', '.'), ('-', '-')]))
        (RE.seq (RE.chr '.')
          (RE.seq (rRep (RE.cls [('a', 'z'), ('A', 'Z')]) 2)
            (RE.star (RE.cls [('a', 'z'), ('A', 'Z')])))))))

/-- `[\s\-]`. -/
def rWsDash : RE := RE.cls (wsRanges ++ [('-', '-')])

/-- `/(\+\d{1,3}[\s\-]?\d{1,4}[\s\-]?\d{1,4}[\s\-]?\d{1,9})/`. -/
def rePhone : RE :=
  RE.grp 1 (RE.seq (RE.chr '+')
    (RE.seq (rRepRange rDigit 1 2)
      (RE.seq (RE.opt rWsDash)
        (RE.seq (rRepRange rDigit 1 3)
          (RE.seq (RE.opt rWsDash)
            (RE.seq (rRepRange rDigit 1 3)
              (RE.seq (RE.opt rWsDash) (rRepRange rDigit 1 8))))))))

/-- `[\s\-–]`. -/
def rWsDashEn : RE := RE.cls (wsRanges ++ [('-', '-'), ('–', '–')])

/-- `/(\d{4}[\s\-–]+\d{4})/`. -/
def reDates1 : RE :=
  RE.grp 1 (RE.seq (rRep rDigit 4) (RE.seq (rPlus rWsDashEn) (rRep rDigit 4)))

/-- `/(\d{4}[\s\-–]+(present|current))/i`. -/
def reDates2 : RE :=
  RE.grp 1 (RE.seq (rRep rDigit 4)
    (RE.seq (rPlus rWsDashEn) (RE.grp 2 (RE.alt (rStr "present") (rStr "current")))))

/-- `/\s+/`. -/
def reWsPlus : RE := rPlus rWs

/-- `/\n\s+/`. -/
def reNlWs : RE := RE.seq (RE.chr '\n') (rPlus rWs)

/-! ## The date patterns of `hasDatePattern` -/

/-- `/\b\d{4}\s*[-–]\s*\d{4}\b/`. -/
def reDateP1 : RE :=
  RE.seq RE.wb (RE.seq (rRep rDigit 4)
    (RE.seq (RE.star rWs) (RE.seq rDash
      (RE.seq (RE.star rWs) (RE.seq (rRep rDigit 4) RE.wb)))))

/-- `/\b\d{4}\s*[-–]\s*(present|current)\b/i`. -/
def reDateP2 : RE :=
  RE.seq RE.wb (RE.seq (rRep rDigit 4)
    (RE.seq (RE.star rWs) (RE.seq rDash
      (RE.seq (RE.star rWs)
        (RE.seq (RE.grp 1 (RE.alt (rStr "present") (rStr "current"))) RE.wb)))))

/-- `/\b(jan|feb|mar|apr|may|jun|jul|aug|sep|oct|nov|dec)\w*\s+\d{4}/i`. -/
def reDateP3 : RE :=
  RE.seq RE.wb (RE.seq
    (RE.grp 1 (rAlts [rStr "jan", rStr "feb", rStr "mar", rStr "apr", rStr "may",
      rStr "jun", rStr "jul", rStr "aug", rStr "sep", rStr "oct", rStr "nov", rStr "dec"]))
    (RE.seq (RE.star rWord) (RE.seq (rPlus rWs) (rRep rDigit 4))))

/-- `/\b\d{1,2}\/\d{4}\s*[-–]\s*\d{1,2}\/\d{4}\b/`. -/
def reDateP4 : RE :=
  RE.seq RE.wb (RE.seq (rRepRange rDigit 1 1)
    (RE.seq (RE.chr '/') (RE.seq (rRep rDigit 4)
      (RE.seq (RE.star rWs) (RE.seq rDash
        (RE.seq (RE.star rWs) (RE.seq (rRepRange rDigit 1 1)
          (RE.seq (RE.chr '/') (RE.seq (rRep rDigit 4) RE.wb)))))))))

/-- `/\b(20\d{2})\s*[-–]\s*(20\d{2}|present|current)\b/i`. -/
def reDateP5 : RE :=
  RE.seq RE.wb (RE.seq (RE.grp 1 (RE.seq (rStr "20") (rRep rDigit 2)))
    (RE.seq (RE.star rWs) (RE.seq rDash
      (RE.seq (RE.star rWs)
        (RE.seq (RE.grp 2 (rAlts [RE.seq (rStr "20") (rRep rDigit 2),
          rStr "present", rStr "current"])) RE.wb)))))

/-- `hasDatePattern(line)`: `datePatterns.some((pattern) => pattern.test(line))`.
The first and fourth patterns carry no `i` flag, the others do. -/
def hasDatePatternL (line : List Char) : Bool :=
  reTest false reDateP1 line || reTest true reDateP2 line || reTest true reDateP3 line ||
    reTest false reDateP4 line || reTest true reDateP5 line

def hasDatePattern (line : String) : Bool := hasDatePatternL line.data

/-! ## Line classifiers -/

/-- The `sectionKeywords` table of `isSectionHeader`. -/
def sectionKeywords : List (List Char) :=
  ["career objective".data, "objective".data, "summary".data, "profile".data,
   "work experience".data, "experience".data, "employment".data,
   "professional experience".data, "education".data, "academic background".data,
   "qualifications".data, "skills".data, "technical skills".data,
   "core competencies".data, "expertise".data, "projects".data, "key projects".data,
   "selected projects".data, "certifications".data, "certificates".data,
   "professional development".data, "achievements".data, "accomplishments".data,
   "awards".data, "languages".data, "language skills".data, "personal skills".data,
   "references".data, "contact".data, "personal information".data]

/-- `isSectionHeader(line)`: keyword match (exact, or substring with
`line.length < 50`), or the all-caps heuristic. -/
def isSectionHeaderL (line : List Char) : Bool :=
  let lowerLine := trimL (lowerL line)
  (sectionKeywords.any fun keyword =>
    lowerLine = keyword || (hasSubstr lowerLine keyword && decide (line.length < 50))) ||
  (line = upperL line && decide (line.length > 2) && decide (line.length < 50) &&
    !line.contains '@' && !line.contains '+' && !hasDatePatternL line)

def isSectionHeader (line : String) : Bool := isSectionHeaderL line.data

/-- The `jobTitlePatterns` table (all tested with the `i` flag). -/
def jobTitlePatterns : List RE :=
  [RE.seq RE.wb (RE.seq (RE.grp 1 (rAlts ([ "manager", "director", "engineer",
     "developer", "analyst", "consultant", "coordinator", "specialist",
     "assistant", "lead", "senior", "junior"].map rStr))) RE.wb),
   RE.seq RE.wb (RE.seq (RE.grp 1 (rAlts ([ "ceo", "cto", "cfo", "vp",
     "vice president", "president", "head", "chief"].map rStr))) RE.wb),
   RE.seq RE.wb (RE.seq (RE.grp 1 (rAlts ([ "intern", "trainee", "associate",
     "executive", "officer", "administrator"].map rStr))) RE.wb),
   RE.seq RE.wb (RE.seq (RE.grp 1 (rAlts ([ "designer", "architect",
     "programmer", "technician", "supervisor"].map rStr))) RE.wb),
   RE.seq RE.wb (RE.seq (RE.grp 1 (rAlts ([ "ambassador", "representative",
     "advisor", "consultant", "instructor", "teacher"].map rStr))) RE.wb)]

/-- `isJobTitle(line, nextLine)`. -/
def isJobTitleL (line nextLine : List Char) : Bool :=
  (jobTitlePatterns.any (fun pattern => reTest true pattern line) &&
    (hasDatePatternL line || hasDatePatternL nextLine)) ||
  (hasDatePatternL line && decide (line.length < 100) && decide (line.length > 10))

def isJobTitle (line nextLine : String) : Bool := isJobTitleL line.data nextLine.data

/-- The `companyPatterns` table (all tested with the `i` flag). -/
def companyPatterns : List RE :=
  [RE.seq RE.wb (RE.seq (RE.grp 1 (rAlts ([ "inc", "llc", "corp", "company",
     "ltd", "limited", "co."].map rStr))) RE.wb),
   RE.seq RE.wb (RE.seq (RE.grp 1 (rAlts ([ "university", "college", "school",
     "institute", "academy"].map rStr))) RE.wb),
   RE.seq RE.wb (RE.seq (RE.grp 1 (rAlts ([ "ministry", "government",
     "department", "agency"].map rStr))) RE.wb),
   RE.seq RE.wb (RE.seq (RE.grp 1 (rAlts ([ "group", "organization",
     "foundation", "firm"].map rStr))) RE.wb)]

/-- `isCompanyName(line, previousLine)`. -/
def isCompanyNameL (line previousLine : List Char) : Bool :=
  companyPatterns.any (fun pattern => reTest true pattern line) ||
  (isJobTitleL previousLine [] && !hasDatePatternL line &&
    decide (line.length < 80) && decide (line.length > 5))

def isCompanyName (line previousLine : String) : Bool :=
  isCompanyNameL line.data previousLine.data

/-! ## `enhanceMarkdown` -/

/-- The initial `.replace(...)` chain of `enhanceMarkdown` (see the comment
block above the regex definitions), followed by `.trim()`. -/
def enhanceChain (markdown : List Char) : List Char :=
  trimL
    (replaceRe false reNlWs [.lit ['\n']]
      (replaceRe false reWsPlus [.lit [' ']]
        (replaceRe true reDates2 [.lit ['*'], .ref 1, .lit ['*']]
          (replaceRe false reDates1 [.lit ['*'], .ref 1, .lit ['*']]
            (replaceRe false rePhone [.lit ['*', '*'], .ref 1, .lit ['*', '*']]
              (replaceRe false reEmail [.lit ['*', '*'], .ref 1, .lit ['*', '*']]
                (replaceRe false reHdr [.ref 1, .lit [' ']]
                  (replaceRe false reNum [.ref 1, .lit ['.', ' ']]
                    (replaceRe false reBullet [.lit ['-', ' ']]
                      (replaceRe false reNl3 [.lit ['\n', '\n']] markdown))))))))))

/-- The post-processing loop of `enhanceMarkdown`: the first argument is the
previous raw array element (`lines[i - 1]`, `none` at `i = 0`). -/
def processLines : Option (List Char) → List (List Char) → List (List Char)
  | _, [] => []
  | prevRaw, l :: rest =>
    let line := trimL l
    let nextLine := match rest with | [] => [] | n :: _ => trimL n
    if line = [] then processLines (some l) rest
    else if isSectionHeaderL line && !startsWithL line ['#'] then
      ('#' :: '#' :: ' ' :: upperL line) :: [] :: processLines (some l) rest
    else if isJobTitleL line nextLine && !startsWithL line ['#'] then
      ('#' :: '#' :: '#' :: ' ' :: line) :: [] :: processLines (some l) rest
    else if isCompanyNameL line (match prevRaw with | none => [] | some p => trimL p) then
      ('*' :: '*' :: (line ++ ['*', '*'])) :: [] :: processLines (some l) rest
    else line :: processLines (some l) rest

def enhanceMarkdownL (markdown : List Char) : List Char :=
  let enhanced := enhanceChain markdown
  trimL (replaceRe false reNl3 [.lit ['\n', '\n']]
    (joinNl (processLines none (splitNl enhanced))))

def enhanceMarkdown (markdown : String) : String := ⟨enhanceMarkdownL markdown.data⟩

/-! ## `extractSections` -/

structure Sections where
  experience : Bool := false
  skills : Bool := false
  education : Bool := false
  certifications : Bool := false
  projects : Bool := false
  achievements : Bool := false
  languages : Bool := false
  deriving DecidableEq

/-- Per-line update of the section flags.  Only lines starting with `"## "`
or `"# "` are considered; `sectionName` is
`line.replace(/^#+\s*/, "").toLowerCase()` (for such lines the regex strips
the leading `#` run and the following whitespace run). -/
def updateSections (s : Sections) (line : List Char) : Sections :=
  if startsWithL line ['#', '#', ' '] || startsWithL line ['#', ' '] then
    let sectionName := lowerL ((line.dropWhile (· = '#')).dropWhile isWs)
    if hasSubstr sectionName "experience".data || hasSubstr sectionName "work".data ||
        hasSubstr sectionName "employment".data then
      { s with experience := true }
    else if hasSubstr sectionName "skill".data || hasSubstr sectionName "competenc".data ||
        hasSubstr sectionName "expertise".data then
      { s with skills := true }
    else if hasSubstr sectionName "education".data || hasSubstr sectionName "academic".data ||
        hasSubstr sectionName "qualification".data then
      { s with education := true }
    else if hasSubstr sectionName "certification".data ||
        hasSubstr sectionName "certificate".data || hasSubstr sectionName "course".data then
      { s with certifications := true }
    else if hasSubstr sectionName "project".data then
      { s with projects := true }
    else if hasSubstr sectionName "achievement".data || hasSubstr sectionName "award".data then
      { s with achievements := true }
    else if hasSubstr sectionName "language".data then
      { s with languages := true }
    else s
  else s

def extractSectionsL (markdown : List Char) : Sections :=
  (splitNl markdown).foldl updateSections {}

def extractSections (markdown : String) : Sections := extractSectionsL markdown.data

/-! ## `generateIntelligentPrompts` -/

/-- The prompt list built by `generateIntelligentPrompts` before the final
`prompts.slice(0, 15)`: each conditional block appends its prompts in source
order.  `content` is `markdown.toLowerCase()`. -/
def generateIntelligentPromptsFull (markdown : List Char) : List String :=
  let content := lowerL markdown
  let sections := extractSectionsL markdown
  let inc := fun (kw : String) => hasSubstr content kw.data
  ["Summarize my CV in 3-4 sentences", "What are my contact details?"] ++
  (if sections.experience then
    ["What is my work experience?", "What are my most recent job responsibilities?",
     "What companies have I worked for?"] ++
    (if inc "senior" || inc "lead" || inc "manager" then
      ["What leadership experience do I have?"] else []) ++
    (if inc "remote" || inc "freelance" then
      ["What remote work experience do I have?"] else [])
  else []) ++
  (if sections.skills then
    ["What are my technical skills?"] ++
    (if inc "javascript" || inc "react" || inc "node" then
      ["What JavaScript and web development skills do I have?"] else []) ++
    (if inc "python" || inc "data" || inc "sql" then
      ["What programming and data analysis skills do I have?"] else []) ++
    (if inc "design" || inc "adobe" || inc "ui/ux" then
      ["What design skills do I have?"] else [])
  else []) ++
  (if sections.education then
    ["What is my educational background?"] ++
    (if inc "computer science" || inc "software engineering" then
      ["What is my technical education?"] else []) ++
    (if inc "bootcamp" || inc "certification" then
      ["What additional training and certifications do I have?"] else [])
  else []) ++
  (if sections.projects then
    ["What projects have I worked on?", "Can you describe my key projects in detail?"] ++
    (if inc "e-commerce" || inc "full-stack" then
      ["What full-stack development projects have I completed?"] else [])
  else []) ++
  (if inc "react" && inc "node" then
    ["What full-stack JavaScript experience do I have?"] else []) ++
  (if inc "mongodb" || inc "database" then
    ["What database experience do I have?"] else []) ++
  (if inc "team" || inc "collaboration" || inc "scrum" then
    ["What teamwork and collaboration skills do I have?"] else []) ++
  (if inc "language" || inc "arabic" || inc "english" then
    ["What languages do I speak?"] else []) ++
  (if inc "saudi" || inc "riyadh" then
    ["What is my location and work availability?"] else [])

def generateIntelligentPromptsL (markdown : List Char) : List String :=
  (generateIntelligentPromptsFull markdown).take 15

def generateIntelligentPrompts (markdown : String) : List String :=
  generateIntelligentPromptsL markdown.data

/-- The 22 distinct prompt strings, in rule order; every list produced by
`generateIntelligentPromptsFull` is a sublist of this one. -/
def masterPrompts : List String :=
  ["Summarize my CV in 3-4 sentences", "What are my contact details?",
   "What is my work experience?", "What are my most recent job responsibilities?",
   "What companies have I worked for?", "What leadership experience do I have?",
   "What remote work experience do I have?", "What are my technical skills?",
   "What JavaScript and web development skills do I have?",
   "What programming and data analysis skills do I have?",
   "What design skills do I have?", "What is my educational background?",
   "What is my technical education?",
   "What additional training and certifications do I have?",
   "What projects have I worked on?", "Can you describe my key projects in detail?",
   "What full-stack development projects have I completed?",
   "What full-stack JavaScript experience do I have?",
   "What database experience do I have?",
   "What teamwork and collaboration skills do I have?",
   "What languages do I speak?", "What is my location and work availability?"]

/-! ## The `generatePrompts` handler

The handler is embedded as a pure transition function.  External
collaborators are abstracted into `Env`: `fileExists` models
`fs.existsSync`, `pdfText` models reading the file and running `pdf2md`
(`.error msg` models a thrown exception with message `msg`), `now` the
timestamp `new Date().toISOString()`.  The Supabase table is a keyed map
`String → Option CvRow`; the handler returns the ordered list of `update`
calls it issues (each a row id with a partial patch, mirroring the three
`.update({...})` call sites) together with the HTTP response.  Deleting the
uploaded file (`fs.unlinkSync`) and failures of the datastore itself are
outside the model. -/

structure CvRow where
  user_id : String
  status : String
  stored_path : String
  extracted_text : Option String := none
  prompts : List String := []
  error_msg : Option String := none
  processed_at : Option String := none
  deriving DecidableEq

/-- A partial update: `none` = column untouched. -/
structure CvPatch where
  status : Option String := none
  extracted_text : Option String := none
  prompts : Option (List String) := none
  error_msg : Option (Option String) := none
  processed_at : Option (Option String) := none
  deriving DecidableEq

/-- The forced-reprocess reset:
`{ status: "uploaded", error_msg: null, processed_at: null }`. -/
def resetPatch : CvPatch :=
  { status := some "uploaded", error_msg := some none, processed_at := some none }

/-- The success update: `{ status: "processed", extracted_text, prompts,
processed_at }`. -/
def processedPatch (text : String) (ps : List String) (ts : String) : CvPatch :=
  { status := some "processed", extracted_text := some text, prompts := some ps,
    processed_at := some (some ts) }

/-- The catch-block update: `{ status: "error", error_msg, processed_at }`. -/
def errorPatch (msg ts : String) : CvPatch :=
  { status := some "error", error_msg := some (some msg),
    processed_at := some (some ts) }

inductive ApiResponse where
  | ok (extractedText markdownContent : String) (examplePrompts : List String)
  | badRequest (error : String)
  | notFound (error : String)
  | serverError (error : String)
  deriving DecidableEq

structure Env where
  fileExists : String → Bool
  pdfText : String → Except String String
  now : String

/-- `enhancedMarkdown.substring(0, 500) + (enhancedMarkdown.length > 500 ? "..." : "")`. -/
def summaryOf (enhanced : String) : String :=
  ⟨enhanced.data.take 500 ++ (if 500 < enhanced.data.length then "...".data else [])⟩

/-- The `generatePrompts` request handler: fetch scoped by id and owner,
status guard, optional forced reset, then extraction → repair →
`enhanceMarkdown` → `generateIntelligentPrompts` → persist. -/
def generatePrompts (env : Env) (db : String → Option CvRow)
    (uploadId userId : String) (force : Bool) :
    List (String × CvPatch) × ApiResponse :=
  match db uploadId with
  | none => ([], .notFound "Upload not found")
  | some rows =>
    if rows.user_id = userId then
      if rows.status ≠ "uploaded" ∧ force = false then
        ([], .badRequest ("Cannot re-process a '" ++ rows.status ++
          "' upload. Add ?force=true to reprocess anyway."))
      else
        let resetWrites :=
          if force = true ∧ rows.status ≠ "uploaded" then [(uploadId, resetPatch)] else []
        if env.fileExists rows.stored_path = false then
          (resetWrites ++ [(uploadId,
              errorPatch ("File not found: " ++ rows.stored_path) env.now)],
            .serverError ("File not found: " ++ rows.stored_path))
        else
          match env.pdfText rows.stored_path with
          | .error msg =>
            (resetWrites ++ [(uploadId, errorPatch msg env.now)], .serverError msg)
          | .ok rawMarkdown =>
            if trimL rawMarkdown.data = [] then
              (resetWrites ++ [(uploadId, errorPatch
                  "No content could be extracted from the PDF" env.now)],
                .serverError "No content could be extracted from the PDF")
            else
              let enhancedMarkdown := enhanceMarkdown (repair rawMarkdown)
              let prompts := generateIntelligentPrompts enhancedMarkdown
              (resetWrites ++ [(uploadId,
                  processedPatch enhancedMarkdown prompts env.now)],
                .ok (summaryOf enhancedMarkdown) enhancedMarkdown prompts)
    else ([], .notFound "Upload not found")

/-- The prompts reachable when only the skills flag is set: the base
prompts, the skills prompts, and the flag-independent keyword prompts. -/
def skillsOnlyMaster : List String :=
  ["Summarize my CV in 3-4 sentences", "What are my contact details?",
   "What are my technical skills?",
   "What JavaScript and web development skills do I have?",
   "What programming and data analysis skills do I have?",
   "What design skills do I have?",
   "What full-stack JavaScript experience do I have?",
   "What database experience do I have?",
   "What teamwork and collaboration skills do I have?",
   "What languages do I speak?", "What is my location and work availability?"]

/-- Well-formedness of a `collapseGo` pending state: the recorded run is
whitespace. -/
def WFpend : Option (Char × List Char) → Prop
  | none => True
  | some (_, ws) => ∀ x ∈ ws, isWs x = true

/-- The synthetic raw extraction of the end-to-end testable property. -/
def sampleRaw : String :=
  "J o h n   D o e\nEXPERIENCE\nSenior Engineer  2019 - 2023\nAcme Inc\n- Built things\nEDUCATION\nBS Computer Science"

/-- A fixture environment whose file store holds no file. -/
def envNoFile : Env :=
  ⟨fun _ => false, fun _ => .ok "stub", "2026-01-01T00:00:00.000Z"⟩

/-- A fixture datastore with a single already-processed upload owned by
"alice". -/
def dbOne : String → Option CvRow :=
  fun i => if i = "u1" then some ⟨"alice", "processed", "path1", none, [], none, none⟩ else none

/-! # Theorems -/

/-! ## Groundwork: character-class facts -/

theorem not_isWs_of_isAlnum {c : Char} (h : isAlnum c = true) : isWs c = false := by
  simp only [isAlnum, decide_eq_true_eq] at h
  simp only [isWs, decide_eq_false_iff_not]
  omega

theorem not_isWs_of_isPunctCh {c : Char} (h : isPunctCh c = true) : isWs c = false := by
  simp only [isPunctCh, decide_eq_true_eq] at h
  simp only [isWs, decide_eq_false_iff_not]
  omega

theorem not_isAlnum_of_isPunctCh {c : Char} (h : isPunctCh c = true) :
    isAlnum c = false := by
  simp only [isPunctCh, decide_eq_true_eq] at h
  simp only [isAlnum, decide_eq_false_iff_not]
  omega

/-! ## Groundwork: whitespace deletion -/

theorem wsDel_refl (l : List Char) : WsDel l l := by
  induction l with
  | nil => exact .nil
  | cons c r ih => exact .keep c ih

theorem wsDel_ws_prepend {m l : List Char} (ws : List Char)
    (hws : ∀ x ∈ ws, isWs x = true) (h : WsDel m l) : WsDel m (ws ++ l) := by
  induction ws with
  | nil => exact h
  | cons w ws' ih =>
    exact .del w (hws w (by simp)) (ih fun x hx => hws x (by simp [hx]))

theorem wsDel_keep_prepend {m l : List Char} (p : List Char) (h : WsDel m l) :
    WsDel (p ++ m) (p ++ l) := by
  induction p with
  | nil => exact h
  | cons c p' ih => exact .keep c ih

theorem wsDel_nil_right {m : List Char} (h : WsDel m []) : m = [] := by
  cases h
  rfl

theorem wsDel_trans {m l k : List Char} (h1 : WsDel m l) (h2 : WsDel l k) :
    WsDel m k := by
  induction h2 generalizing m with
  | nil => exact h1
  | keep c h ih =>
    cases h1 with
    | keep c h' => exact .keep c (ih h')
    | del c hc h' => exact .del c hc (ih h')
  | del c hc h ih => exact .del c hc (ih h1)

theorem wsDel_sublist {m l : List Char} (h : WsDel m l) : m.Sublist l := by
  induction h with
  | nil => exact .slnil
  | keep c h ih => exact ih.cons₂ c
  | del c hc h ih => exact ih.cons c

theorem wsDel_count {m l : List Char} (h : WsDel m l) {c : Char}
    (hc : isWs c = false) : m.count c = l.count c := by
  induction h with
  | nil => rfl
  | keep x h ih => simp [List.count_cons, ih]
  | del x hx h ih =>
    have hne : ¬ (x = c) := fun he => by rw [he] at hx; rw [hx] at hc; cases hc
    simp [List.count_cons, ih, hne]

/-! ## The collapse pass deletes only whitespace -/

theorem collapseGo_wsDel (l : List Char) :
    ∀ pend, WFpend pend → WsDel (collapseGo pend l) (confList pend l) := by
  induction l with
  | nil =>
    intro pend hwf
    match pend with
    | none => exact .nil
    | some (a, ws) =>
      simp only [collapseGo, confList, List.append_nil]
      exact wsDel_refl _
  | cons c r ih =>
    intro pend hwf
    match pend with
    | none =>
      by_cases ha : isAlnum c = true
      · simpa [collapseGo, ha, confList] using ih (some (c, [])) (by simp [WFpend])
      · simp only [collapseGo, ha, if_false, Bool.false_eq_true, confList]
        exact .keep c (ih none trivial)
    | some (a, ws) =>
      by_cases ha : isAlnum c = true
      · by_cases hws : ws = []
        · subst hws
          simp only [collapseGo, ha, if_true, confList, List.nil_append]
          exact .keep a (ih (some (c, [])) (by simp [WFpend]))
        · simp only [collapseGo, ha, hws, if_true, if_false, confList]
          refine .keep a ?_
          exact wsDel_ws_prepend ws hwf (.keep c (ih none trivial))
      · by_cases hw : isWs c = true
        · have := ih (some (a, ws ++ [c])) (by
            intro x hx
            rcases List.mem_append.mp hx with h | h
            · exact hwf x h
            · simp only [List.mem_singleton] at h; subst h; exact hw)
          simpa [collapseGo, ha, hw, confList, List.append_assoc] using this
        · simp only [collapseGo, ha, hw, if_false, Bool.false_eq_true, confList]
          refine .keep a ?_
          refine wsDel_keep_prepend ws ?_
          exact .keep c (ih none trivial)

theorem collapseOnce_wsDel (l : List Char) : WsDel (collapseOnce l) l :=
  collapseGo_wsDel l none trivial

theorem collapseGo_length_le (l : List Char) (pend : Option (Char × List Char))
    (hwf : WFpend pend) : (collapseGo pend l).length ≤ (confList pend l).length :=
  (wsDel_sublist (collapseGo_wsDel l pend hwf)).length_le

theorem not_isAlnum_of_isWs {c : Char} (h : isWs c = true) : isAlnum c = false := by
  cases ha : isAlnum c
  · rfl
  · rw [not_isWs_of_isAlnum ha] at h; cases h

/-! ## `collapseOnce` reaches a fixed point exactly on gap-free strings -/

theorem collapseGo_eq_of_noGap (l : List Char) :
    ∀ pend, gapScan (stOf pend) l = false → collapseGo pend l = confList pend l := by
  induction l with
  | nil =>
    intro pend _
    match pend with
    | none => rfl
    | some (a, ws) => simp [collapseGo, confList]
  | cons c r ih =>
    intro pend hscan
    match pend with
    | none =>
      by_cases ha : isAlnum c = true
      · simp only [stOf, gapScan, ha, if_true] at hscan
        simpa [collapseGo, ha, confList] using ih (some (c, [])) hscan
      · simp only [stOf, gapScan, ha, Bool.false_eq_true, if_false] at hscan
        have hrec : collapseGo none r = r := by
          by_cases hw : isWs c = true
          · simpa [confList] using ih none (by simpa [hw] using hscan)
          · simpa [confList] using ih none (by simpa [hw] using hscan)
        simp [collapseGo, ha, confList, hrec]
    | some (a, ws) =>
      match ws with
      | [] =>
        by_cases ha : isAlnum c = true
        · simp only [stOf, gapScan, ha, if_true] at hscan
          have := ih (some (c, [])) hscan
          simp only [stOf] at this
          simp [collapseGo, ha, confList, this]
        · simp only [stOf, gapScan, ha, Bool.false_eq_true, if_false] at hscan
          by_cases hw : isWs c = true
          · simp only [hw, if_true] at hscan
            have := ih (some (a, [c])) (by simpa [stOf] using hscan)
            simp only [confList] at this
            simpa [collapseGo, ha, hw, confList] using this
          · simp only [hw, Bool.false_eq_true, if_false] at hscan
            have := ih none (by simpa [stOf] using hscan)
            simp only [confList] at this
            simp [collapseGo, ha, hw, confList, this]
      | w :: ws' =>
        by_cases ha : isAlnum c = true
        · simp [stOf, gapScan, ha] at hscan
        · simp only [stOf, gapScan, ha, Bool.false_eq_true, if_false] at hscan
          by_cases hw : isWs c = true
          · simp only [hw, if_true] at hscan
            have := ih (some (a, (w :: ws') ++ [c])) (by simpa [stOf] using hscan)
            simp only [confList] at this
            simpa [collapseGo, ha, hw, confList, List.append_assoc] using this
          · simp only [hw, Bool.false_eq_true, if_false] at hscan
            have := ih none (by simpa [stOf] using hscan)
            simp only [confList] at this
            simp [collapseGo, ha, hw, confList, this]

theorem collapseGo_lt_of_gap (l : List Char) :
    ∀ pend, gapScan (stOf pend) l = true →
      (collapseGo pend l).length < (confList pend l).length := by
  induction l with
  | nil =>
    intro pend hscan
    simp [gapScan] at hscan
  | cons c r ih =>
    intro pend hscan
    match pend with
    | none =>
      by_cases ha : isAlnum c = true
      · simp only [stOf, gapScan, ha, if_true] at hscan
        have := ih (some (c, [])) (by simpa [stOf] using hscan)
        simp only [collapseGo, ha, if_true]
        simp only [confList, List.cons_append, List.nil_append, List.singleton_append,
          List.length_cons, List.length_append, List.length_nil] at this ⊢
        omega
      · simp only [stOf, gapScan, ha, Bool.false_eq_true, if_false] at hscan
        have hrec : (collapseGo none r).length < r.length := by
          by_cases hw : isWs c = true
          · simpa [confList] using ih none (by simpa [hw] using hscan)
          · simpa [confList] using ih none (by simpa [hw] using hscan)
        simp only [collapseGo, ha, Bool.false_eq_true, if_false]
        simp only [confList, List.length_cons]
        omega
    | some (a, ws) =>
      match ws with
      | [] =>
        by_cases ha : isAlnum c = true
        · simp only [stOf, gapScan, ha, if_true] at hscan
          have := ih (some (c, [])) (by simpa [stOf] using hscan)
          simp only [collapseGo, ha, if_true]
          simp only [confList, List.cons_append, List.nil_append, List.singleton_append,
            List.length_cons, List.length_append, List.length_nil] at this ⊢
          omega
        · simp only [stOf, gapScan, ha, Bool.false_eq_true, if_false] at hscan
          by_cases hw : isWs c = true
          · simp only [hw, if_true] at hscan
            have := ih (some (a, [c])) (by simpa [stOf] using hscan)
            simp only [collapseGo, ha, hw, Bool.false_eq_true, if_false, if_true]
            simp only [confList, List.cons_append, List.nil_append,
              List.singleton_append, List.length_cons, List.length_append,
              List.length_nil] at this ⊢
            omega
          · simp only [hw, Bool.false_eq_true, if_false] at hscan
            have := ih none (by simpa [stOf] using hscan)
            simp only [collapseGo, ha, hw, Bool.false_eq_true, if_false]
            simp only [confList, List.cons_append, List.nil_append,
              List.singleton_append, List.length_cons, List.length_append,
              List.length_nil] at this ⊢
            omega
      | w :: ws' =>
        by_cases ha : isAlnum c = true
        · have hle : (collapseGo none r).length ≤ r.length := by
            simpa [confList] using collapseGo_length_le r none trivial
          have hne : ¬ (w :: ws' = []) := by simp
          simp only [collapseGo, ha, if_true, hne, if_false]
          simp only [confList, List.cons_append, List.nil_append,
            List.singleton_append, List.length_cons, List.length_append,
            List.length_nil]
          omega
        · simp only [stOf, gapScan, ha, Bool.false_eq_true, if_false] at hscan
          by_cases hw : isWs c = true
          · simp only [hw, if_true] at hscan
            have := ih (some (a, (w :: ws') ++ [c])) (by simpa [stOf] using hscan)
            simp only [collapseGo, ha, hw, Bool.false_eq_true, if_false, if_true]
            simp only [confList, List.cons_append, List.nil_append,
              List.singleton_append, List.length_cons, List.length_append,
              List.length_nil] at this ⊢
            omega
          · simp only [hw, Bool.false_eq_true, if_false] at hscan
            have := ih none (by simpa [stOf] using hscan)
            simp only [collapseGo, ha, hw, Bool.false_eq_true, if_false]
            simp only [confList, List.cons_append, List.nil_append,
              List.singleton_append, List.length_cons, List.length_append,
              List.length_nil] at this ⊢
            omega

theorem collapseOnce_eq_of_noGap {l : List Char} (h : hasGapB l = false) :
    collapseOnce l = l := by
  simpa [confList] using collapseGo_eq_of_noGap l none (by simpa [stOf, hasGapB] using h)

theorem collapseOnce_lt_of_gap {l : List Char} (h : hasGapB l = true) :
    (collapseOnce l).length < l.length := by
  simpa [confList] using collapseGo_lt_of_gap l none (by simpa [stOf, hasGapB] using h)

theorem noGap_of_fixed {l : List Char} (h : collapseOnce l = l) :
    hasGapB l = false := by
  cases hg : hasGapB l
  · rfl
  · have := collapseOnce_lt_of_gap hg
    rw [h] at this
    omega

/-! ## The fixed-point loop -/

theorem collapseIter_fixed : ∀ (n : Nat) (l : List Char), l.length ≤ n →
    collapseOnce (collapseIter n l) = collapseIter n l := by
  intro n
  induction n with
  | zero =>
    intro l hl
    have : l = [] := List.eq_nil_of_length_eq_zero (Nat.le_zero.mp hl)
    subst this
    rfl
  | succ n ih =>
    intro l hl
    by_cases he : collapseOnce l = l
    · simp [collapseIter, he]
    · simp only [collapseIter, he, if_false]
      apply ih
      cases hg : hasGapB l
      · exact absurd (collapseOnce_eq_of_noGap hg) he
      · have := collapseOnce_lt_of_gap hg
        omega

theorem collapseLetterGapsL_fixed (l : List Char) :
    collapseOnce (collapseLetterGapsL l) = collapseLetterGapsL l :=
  collapseIter_fixed l.length l le_rfl

theorem collapseLetterGapsL_of_fixed {l : List Char} (h : collapseOnce l = l) :
    collapseLetterGapsL l = l := by
  unfold collapseLetterGapsL
  rcases hl : l.length with _ | n
  · rfl
  · simp [collapseIter, h]

theorem collapseIter_wsDel : ∀ (n : Nat) (l : List Char), WsDel (collapseIter n l) l := by
  intro n
  induction n with
  | zero => intro l; exact wsDel_refl l
  | succ n ih =>
    intro l
    by_cases he : collapseOnce l = l
    · simp only [collapseIter, he, if_true]
      exact wsDel_refl l
    · simp only [collapseIter, he, if_false]
      exact wsDel_trans (ih (collapseOnce l)) (collapseOnce_wsDel l)

/-! ## Deleting whitespace never creates a letter gap -/

theorem gapScan_wsDel {m l : List Char} (h : WsDel m l) :
    ∀ stm stl, stRank stm ≤ stRank stl → gapScan stl l = false →
      gapScan stm m = false := by
  induction h with
  | nil =>
    intro stm stl _ _
    simp [gapScan]
  | keep c h ih =>
    intro stm stl hle hscan
    by_cases ha : isAlnum c = true
    · match stl with
      | .s2 => simp [gapScan, ha] at hscan
      | .s0 =>
        simp only [gapScan, ha, if_true] at hscan
        match stm with
        | .s2 => simp [stRank] at hle
        | .s1 => simp [stRank] at hle
        | .s0 =>
          simp only [gapScan, ha, if_true]
          exact ih .s1 .s1 le_rfl hscan
      | .s1 =>
        simp only [gapScan, ha, if_true] at hscan
        match stm with
        | .s2 => simp [stRank] at hle
        | .s0 =>
          simp only [gapScan, ha, if_true]
          exact ih .s1 .s1 le_rfl hscan
        | .s1 =>
          simp only [gapScan, ha, if_true]
          exact ih .s1 .s1 le_rfl hscan
    · by_cases hw : isWs c = true
      · simp only [gapScan, ha, Bool.false_eq_true, if_false, hw, if_true] at hscan ⊢
        match stm, stl with
        | .s0, .s0 => exact ih .s0 .s0 le_rfl hscan
        | .s0, .s1 => exact ih .s0 .s2 (by simp [stRank]) hscan
        | .s0, .s2 => exact ih .s0 .s2 (by simp [stRank]) hscan
        | .s1, .s0 => simp [stRank] at hle
        | .s1, .s1 => exact ih .s2 .s2 le_rfl hscan
        | .s1, .s2 => exact ih .s2 .s2 le_rfl hscan
        | .s2, .s0 => simp [stRank] at hle
        | .s2, .s1 => simp [stRank] at hle
        | .s2, .s2 => exact ih .s2 .s2 le_rfl hscan
      · simp only [gapScan, ha, hw, Bool.false_eq_true, if_false] at hscan ⊢
        exact ih .s0 .s0 le_rfl hscan
  | del c hc h ih =>
    intro stm stl hle hscan
    have ha : isAlnum c = false := not_isAlnum_of_isWs hc
    simp only [gapScan, ha, Bool.false_eq_true, if_false, hc, if_true] at hscan
    match stl with
    | .s0 => exact ih stm .s0 hle hscan
    | .s1 => exact ih stm .s2 (le_trans hle (by simp [stRank])) hscan
    | .s2 => exact ih stm .s2 hle hscan

/-! ## The punctuation pass -/

theorem pgapScan_allWs (ws : List Char) (hws : ∀ x ∈ ws, isWs x = true) :
    ∀ b, pgapScan b ws = false := by
  induction ws with
  | nil => intro b; rfl
  | cons w ws' ih =>
    intro b
    have hw : isWs w = true := hws w (by simp)
    simp only [pgapScan, hw, if_true]
    exact ih (fun x hx => hws x (by simp [hx])) true

theorem pgapScan_append_ws (ws : List Char) (hws : ∀ x ∈ ws, isWs x = true) :
    ∀ (b : Bool) (rest : List Char),
      pgapScan b (ws ++ rest) = pgapScan (if ws = [] then b else true) rest := by
  induction ws with
  | nil => intro b rest; simp
  | cons w ws' ih =>
    intro b rest
    have hw : isWs w = true := hws w (by simp)
    have hne : ¬ (w :: ws' = []) := by simp
    simp only [List.cons_append, pgapScan, hw, if_true, hne, if_false,
      List.append_eq]
    rw [ih (fun x hx => hws x (by simp [hx])) true rest]
    by_cases h : ws' = [] <;> simp [h]

theorem punctGo_wsDel (l : List Char) :
    ∀ ws, (∀ x ∈ ws, isWs x = true) → WsDel (punctGo ws l) (ws ++ l) := by
  induction l with
  | nil =>
    intro ws hws
    simpa using wsDel_refl ws
  | cons c r ih =>
    intro ws hws
    by_cases hw : isWs c = true
    · have := ih (ws ++ [c]) (by
        intro x hx
        rcases List.mem_append.mp hx with h | h
        · exact hws x h
        · simp only [List.mem_singleton] at h; subst h; exact hw)
      simp only [punctGo, hw, if_true]
      simpa [List.append_assoc] using this
    · by_cases hp : isPunctCh c = true
      · simp only [punctGo, hw, Bool.false_eq_true, if_false, hp, if_true]
        exact wsDel_ws_prepend ws hws (.keep c (ih [] (by simp)))
      · simp only [punctGo, hw, hp, Bool.false_eq_true, if_false]
        exact wsDel_keep_prepend ws (.keep c (ih [] (by simp)))

theorem punctGo_noPgap (l : List Char) :
    ∀ ws, (∀ x ∈ ws, isWs x = true) → pgapScan false (punctGo ws l) = false := by
  induction l with
  | nil =>
    intro ws hws
    exact pgapScan_allWs ws hws false
  | cons c r ih =>
    intro ws hws
    by_cases hw : isWs c = true
    · simp only [punctGo, hw, if_true]
      exact ih (ws ++ [c]) (by
        intro x hx
        rcases List.mem_append.mp hx with h | h
        · exact hws x h
        · simp only [List.mem_singleton] at h; subst h; exact hw)
    · by_cases hp : isPunctCh c = true
      · simp only [punctGo, hw, Bool.false_eq_true, if_false, hp, if_true]
        simp only [pgapScan, hw, Bool.false_eq_true, if_false, hp, if_true,
          Bool.false_or]
        exact ih [] (by simp)
      · simp only [punctGo, hw, hp, Bool.false_eq_true, if_false]
        rw [pgapScan_append_ws ws hws false (c :: punctGo [] r)]
        have hstep : ∀ b, pgapScan b (c :: punctGo [] r) = pgapScan false (punctGo [] r) := by
          intro b
          simp [pgapScan, hw, hp]
        rw [hstep]
        exact ih [] (by simp)

theorem punctGo_eq_of_noPgap (l : List Char) :
    ∀ ws, (∀ x ∈ ws, isWs x = true) →
      pgapScan (!ws.isEmpty) l = false → punctGo ws l = ws ++ l := by
  induction l with
  | nil =>
    intro ws _ _
    simp [punctGo]
  | cons c r ih =>
    intro ws hws hscan
    by_cases hw : isWs c = true
    · simp only [pgapScan, hw, if_true] at hscan
      have hne : (!(ws ++ [c]).isEmpty) = true := by
        simp [List.isEmpty_eq_true]
      have := ih (ws ++ [c]) (by
        intro x hx
        rcases List.mem_append.mp hx with h | h
        · exact hws x h
        · simp only [List.mem_singleton] at h; subst h; exact hw)
        (by rw [hne]; exact hscan)
      simp only [punctGo, hw, if_true]
      rw [this]
      simp [List.append_assoc]
    · by_cases hp : isPunctCh c = true
      · simp only [pgapScan, hw, Bool.false_eq_true, if_false, hp, if_true,
          Bool.or_eq_false_iff] at hscan
        obtain ⟨h1, h2⟩ := hscan
        have hwsnil : ws = [] := by
          cases ws with
          | nil => rfl
          | cons w ws' => simp [List.isEmpty] at h1
        subst hwsnil
        simp only [punctGo, hw, Bool.false_eq_true, if_false, hp, if_true,
          List.nil_append]
        rw [ih [] (by simp) (by simpa using h2)]
        simp
      · simp only [pgapScan, hw, hp, Bool.false_eq_true, if_false] at hscan
        simp only [punctGo, hw, hp, Bool.false_eq_true, if_false]
        rw [ih [] (by simp) (by simpa using hscan)]
        simp

/-! ## Idempotence of `repair` -/

theorem repairL_wsDel (l : List Char) : WsDel (repairL l) l :=
  wsDel_trans (by simpa using punctGo_wsDel (collapseLetterGapsL l) [] (by simp))
    (collapseIter_wsDel l.length l)

theorem repairL_idem (l : List Char) : repairL (repairL l) = repairL l := by
  have h1 := collapseLetterGapsL_fixed l
  have h2 : hasGapB (collapseLetterGapsL l) = false := noGap_of_fixed h1
  have h3 : WsDel (repairL l) (collapseLetterGapsL l) := by
    simpa using punctGo_wsDel (collapseLetterGapsL l) [] (by simp)
  have h4 : hasGapB (repairL l) = false := by
    have := gapScan_wsDel h3 .s0 .s0 le_rfl (by simpa [hasGapB] using h2)
    simpa [hasGapB] using this
  have h5 : collapseOnce (repairL l) = repairL l := collapseOnce_eq_of_noGap h4
  have h6 : collapseLetterGapsL (repairL l) = repairL l :=
    collapseLetterGapsL_of_fixed h5
  have h7 : pgapScan false (repairL l) = false :=
    punctGo_noPgap (collapseLetterGapsL l) [] (by simp)
  show punctGo [] (collapseLetterGapsL (repairL l)) = repairL l
  rw [h6]
  simpa using punctGo_eq_of_noPgap (repairL l) [] (by simp) (by simpa using h7)

/-! ## Prompt-generator lemmas -/

theorem ite_nil_sublist {α : Type} {p : Prop} [Decidable p] (l : List α) :
    (if p then l else []).Sublist l := by
  split
  · exact List.Sublist.refl l
  · exact List.nil_sublist l

theorem ite_sublist {α : Type} {p : Prop} [Decidable p] {l m : List α}
    (h : l.Sublist m) : (if p then l else []).Sublist m := by
  split
  · exact h
  · exact List.nil_sublist m

theorem promptsFull_sublist_master (markdown : List Char) :
    (generateIntelligentPromptsFull markdown).Sublist masterPrompts := by
  show (generateIntelligentPromptsFull markdown).Sublist
    (((((((((["Summarize my CV in 3-4 sentences", "What are my contact details?"] ++
      ((["What is my work experience?", "What are my most recent job responsibilities?",
         "What companies have I worked for?"] ++
        ["What leadership experience do I have?"]) ++
       ["What remote work experience do I have?"])) ++
      (((["What are my technical skills?"] ++
         ["What JavaScript and web development skills do I have?"]) ++
        ["What programming and data analysis skills do I have?"]) ++
       ["What design skills do I have?"])) ++
      ((["What is my educational background?"] ++
        ["What is my technical education?"]) ++
       ["What additional training and certifications do I have?"])) ++
      (["What projects have I worked on?", "Can you describe my key projects in detail?"] ++
       ["What full-stack development projects have I completed?"])) ++
      ["What full-stack JavaScript experience do I have?"]) ++
      ["What database experience do I have?"]) ++
      ["What teamwork and collaboration skills do I have?"]) ++
      ["What languages do I speak?"]) ++
      ["What is my location and work availability?"])
  refine List.Sublist.append (List.Sublist.append (List.Sublist.append
    (List.Sublist.append (List.Sublist.append (List.Sublist.append
      (List.Sublist.append (List.Sublist.append (List.Sublist.append
        (List.Sublist.refl _) ?hE) ?hS) ?hED) ?hP)
      (ite_nil_sublist _)) (ite_nil_sublist _)) (ite_nil_sublist _))
    (ite_nil_sublist _)) (ite_nil_sublist _)
  case hE =>
    exact ite_sublist (List.Sublist.append (List.Sublist.append
      (List.Sublist.refl _) (ite_nil_sublist _)) (ite_nil_sublist _))
  case hS =>
    exact ite_sublist (List.Sublist.append (List.Sublist.append
      (List.Sublist.append (List.Sublist.refl _) (ite_nil_sublist _))
      (ite_nil_sublist _)) (ite_nil_sublist _))
  case hED =>
    exact ite_sublist (List.Sublist.append (List.Sublist.append
      (List.Sublist.refl _) (ite_nil_sublist _)) (ite_nil_sublist _))
  case hP =>
    exact ite_sublist (List.Sublist.append (List.Sublist.refl _)
      (ite_nil_sublist _))

theorem masterPrompts_nodup : masterPrompts.Nodup := by decide

/-- **C10**: for every markdown input, `generateIntelligentPrompts` returns at
least two prompts, and the first two are exactly the unconditional base
prompts "Summarize my CV in 3-4 sentences" and "What are my contact
details?"; hence every record the pipeline marks processed carries a
non-empty prompts sequence. -/
theorem generateIntelligentPrompts_base_head (markdown : String) :
    2 ≤ (generateIntelligentPrompts markdown).length ∧
    (generateIntelligentPrompts markdown).take 2 =
      ["Summarize my CV in 3-4 sentences", "What are my contact details?"] := by
  obtain ⟨rest, hrest⟩ : ∃ rest, generateIntelligentPromptsFull markdown.data =
      "Summarize my CV in 3-4 sentences" :: "What are my contact details?" :: rest :=
    ⟨_, rfl⟩
  have h : generateIntelligentPrompts markdown =
      "Summarize my CV in 3-4 sentences" :: "What are my contact details?" ::
        rest.take 13 := by
    show (generateIntelligentPromptsFull markdown.data).take 15 = _
    rw [hrest]
    rfl
  rw [h]
  exact ⟨by simp, rfl⟩

/-- **C5**: for every markdown input — in particular inputs making more than
15 generation rules fire — `generateIntelligentPrompts` returns at most 15
prompts and contains no duplicate strings. -/
theorem generateIntelligentPrompts_cap_dedup (markdown : String) :
    (generateIntelligentPrompts markdown).length ≤ 15 ∧
    (generateIntelligentPrompts markdown).Nodup := by
  constructor
  · exact List.length_take_le 15 _
  · exact masterPrompts_nodup.sublist
      ((List.take_sublist 15 _).trans (promptsFull_sublist_master markdown.data))

/-- **C6**: for markdown whose section extraction yields the skills flag and
no other flag, the prompt list includes the skills prompt and both
unconditional base prompts, and includes no education-specific or
project-specific prompt. -/
theorem skills_only_prompts (markdown : String)
    (h : extractSections markdown = { skills := true }) :
    "What are my technical skills?" ∈ generateIntelligentPrompts markdown ∧
    "Summarize my CV in 3-4 sentences" ∈ generateIntelligentPrompts markdown ∧
    "What are my contact details?" ∈ generateIntelligentPrompts markdown ∧
    "What is my educational background?" ∉ generateIntelligentPrompts markdown ∧
    "What is my technical education?" ∉ generateIntelligentPrompts markdown ∧
    "What additional training and certifications do I have?" ∉
      generateIntelligentPrompts markdown ∧
    "What projects have I worked on?" ∉ generateIntelligentPrompts markdown ∧
    "Can you describe my key projects in detail?" ∉
      generateIntelligentPrompts markdown ∧
    "What full-stack development projects have I completed?" ∉
      generateIntelligentPrompts markdown := by
  have hsec : extractSectionsL markdown.data = { skills := true } := h
  have hexp : (extractSectionsL markdown.data).experience = false := by rw [hsec]
  have hskill : (extractSectionsL markdown.data).skills = true := by rw [hsec]
  have hedu : (extractSectionsL markdown.data).education = false := by rw [hsec]
  have hproj : (extractSectionsL markdown.data).projects = false := by rw [hsec]
  obtain ⟨rest, hrest⟩ : ∃ rest, generateIntelligentPromptsFull markdown.data =
      "Summarize my CV in 3-4 sentences" :: "What are my contact details?" ::
        "What are my technical skills?" :: rest := by
    apply Exists.intro
    simp only [generateIntelligentPromptsFull]
    rw [hexp, hskill, hedu, hproj]
    rfl
  have hP : generateIntelligentPrompts markdown =
      "Summarize my CV in 3-4 sentences" :: "What are my contact details?" ::
        "What are my technical skills?" :: rest.take 12 := by
    show (generateIntelligentPromptsFull markdown.data).take 15 = _
    rw [hrest]
    rfl
  have hsub : (generateIntelligentPrompts markdown).Sublist skillsOnlyMaster := by
    refine (List.take_sublist 15 (generateIntelligentPromptsFull markdown.data)).trans ?_
    simp only [generateIntelligentPromptsFull]
    rw [hexp, hskill, hedu, hproj]
    simp only [Bool.false_eq_true, if_false, eq_self_iff_true, if_true,
      List.append_nil, List.nil_append]
    show List.Sublist _
      (["Summarize my CV in 3-4 sentences", "What are my contact details?"] ++
       (["What are my technical skills?"] ++
        ["What JavaScript and web development skills do I have?"] ++
        ["What programming and data analysis skills do I have?"] ++
        ["What design skills do I have?"]) ++
       ["What full-stack JavaScript experience do I have?"] ++
       ["What database experience do I have?"] ++
       ["What teamwork and collaboration skills do I have?"] ++
       ["What languages do I speak?"] ++
       ["What is my location and work availability?"])
    refine List.Sublist.append (List.Sublist.append (List.Sublist.append
      (List.Sublist.append (List.Sublist.append (List.Sublist.append
        (List.Sublist.refl _) ?S1) ?T1) ?T2) ?T3) ?T4) ?T5
    case S1 =>
      exact List.Sublist.append (List.Sublist.append (List.Sublist.append
        (List.Sublist.refl _) (ite_nil_sublist _)) (ite_nil_sublist _))
        (ite_nil_sublist _)
    case T1 => exact ite_nil_sublist _
    case T2 => exact ite_nil_sublist _
    case T3 => exact ite_nil_sublist _
    case T4 => exact ite_nil_sublist _
    case T5 => exact ite_nil_sublist _
  refine ⟨by rw [hP]; simp, by rw [hP]; simp, by rw [hP]; simp, ?_, ?_, ?_, ?_, ?_, ?_⟩
  all_goals exact fun hmem => absurd (hsub.subset hmem) (by decide)

/-- **C7**: the repair step is idempotent: `repair (repair x) = repair x`
for every input — one application of `collapseLetterGaps` followed by
punctuation-whitespace removal already reaches a fixed point. -/
theorem repair_idempotent (x : String) : repair (repair x) = repair x :=
  congrArg String.mk (repairL_idem x.data)

/-- **C2** (counterexample): repair does not leave normal prose intact — on
"Hello world, friend.", which contains no whitespace before punctuation (so
the claim implies repair returns it with its words intact), the space
between "Hello" and "world" is deleted. -/
theorem repair_prose_counterexample :
    repair "Hello world, friend." ≠ "Hello world, friend." ∧
    repair "Hello world, friend." = "Helloworld, friend." := by
  constructor
  · decide
  · decide

/-- **C2** (amended): runs of single-letter tokens are merged into
contiguous words, but repair merges every whitespace run lying strictly
between two alphanumerics, so the words of normal prose are merged too;
only whitespace adjacent to a non-alphanumeric (such as the space after the
comma) survives. -/
theorem repair_letter_merge :
    repair "H e l l o   w o r l d" = "Helloworld" ∧
    repair "Hello world, friend." = "Helloworld, friend." := by
  constructor
  · decide
  · decide

/-- **C3** (counterexample): repair merges lines: in "a\nb" the newline lies
between two alphanumerics and is deleted, so splitting the repaired output
on newlines does not yield the input's line sequence. -/
theorem repair_lines_counterexample :
    repair "a\nb" = "ab" ∧
    splitNl (repair "a\nb").data ≠ splitNl ("a\nb" : String).data := by
  constructor
  · decide
  · decide

/-- **C3** (amended): the repair step only deletes whitespace characters:
its output is a subsequence of the input in which every non-whitespace
character keeps its multiplicity — no line break is ever introduced or
reordered — but newlines lying in a whitespace run between two
alphanumerics or before punctuation are deleted, so the newline-split line
structure is not preserved in general. -/
theorem repair_deletes_only_whitespace (x : String) :
    (repair x).data.Sublist x.data ∧
    ∀ c : Char, isWs c = false → (repair x).data.count c = x.data.count c :=
  ⟨wsDel_sublist (repairL_wsDel x.data),
   fun _ hc => wsDel_count (repairL_wsDel x.data) hc⟩

/-- Witness for `repair_deletes_only_whitespace` at the line-merging input
"a\nb" and the non-whitespace character 'b'. -/
theorem repair_deletes_only_whitespace_witness :
    isWs 'b' = false ∧
    (repair "a\nb").data.count 'b' = ("a\nb" : String).data.count 'b' :=
  ⟨by decide, (repair_deletes_only_whitespace "a\nb").2 'b' (by decide)⟩

/-- **C8**: the line "EXPERIENCE" (all caps, short, no '@') classifies as a
section header, and "Software Engineer, 2020 - Present" (role keyword with
a date pattern) classifies as a job title whatever the next line is. -/
theorem line_classification :
    isSectionHeader "EXPERIENCE" = true ∧
    ∀ nextLine : String,
      isJobTitle "Software Engineer, 2020 - Present" nextLine = true := by
  constructor
  · decide
  · intro nextLine
    have h1 : jobTitlePatterns.any (fun pattern =>
        reTest true pattern ("Software Engineer, 2020 - Present" : String).data) = true := by
      decide
    have h2 : hasDatePatternL ("Software Engineer, 2020 - Present" : String).data = true := by
      decide
    unfold isJobTitle isJobTitleL
    rw [h1, h2]
    simp

/-- Witness for `skills_only_prompts` at the markdown "## SKILLS\nJava". -/
theorem skills_only_prompts_witness :
    extractSections "## SKILLS\nJava" = { skills := true } ∧
    "What are my technical skills?" ∈ generateIntelligentPrompts "## SKILLS\nJava" :=
  ⟨by decide, (skills_only_prompts "## SKILLS\nJava" (by decide)).1⟩

set_option maxRecDepth 400000

/-- **C1**: evaluating the pipeline (repair, then `enhanceMarkdown`, then
`generateIntelligentPrompts`) at the claim's synthetic raw extraction: the
letter-gap collapse glues the entire document (also across newlines) and
`enhanceMarkdown`'s whitespace collapse removes the remaining line break, so
the structured markdown is the single line
"### JohnDoeEXPERIENCESeniorEngineer*2019 - 2023*AcmeInc - BuiltthingsEDUCATIONBSComputerScience" —
it contains no "## EXPERIENCE" or "## EDUCATION" header — and the prompt
list is exactly the two base prompts, without the work-experience and
educational-background prompts the claim requires. -/
theorem c1_pipeline_at_sample :
    repair sampleRaw =
      "JohnDoeEXPERIENCESeniorEngineer2019 - 2023AcmeInc\n- BuiltthingsEDUCATIONBSComputerScience" ∧
    enhanceMarkdown (repair sampleRaw) =
      "### JohnDoeEXPERIENCESeniorEngineer*2019 - 2023*AcmeInc - BuiltthingsEDUCATIONBSComputerScience" ∧
    hasSubstr (enhanceMarkdown (repair sampleRaw)).data ("## EXPERIENCE" : String).data = false ∧
    hasSubstr (enhanceMarkdown (repair sampleRaw)).data ("## EDUCATION" : String).data = false ∧
    generateIntelligentPrompts (enhanceMarkdown (repair sampleRaw)) =
      ["Summarize my CV in 3-4 sentences", "What are my contact details?"] := by
  have h1 : repair sampleRaw =
      "JohnDoeEXPERIENCESeniorEngineer2019 - 2023AcmeInc\n- BuiltthingsEDUCATIONBSComputerScience" := by
    decide
  have h2 : enhanceMarkdown
      "JohnDoeEXPERIENCESeniorEngineer2019 - 2023AcmeInc\n- BuiltthingsEDUCATIONBSComputerScience" =
      "### JohnDoeEXPERIENCESeniorEngineer*2019 - 2023*AcmeInc - BuiltthingsEDUCATIONBSComputerScience" := by
    decide
  refine ⟨h1, ?_, ?_, ?_, ?_⟩
  · rw [h1]
    exact h2
  · rw [h1, h2]
    decide
  · rw [h1, h2]
    decide
  · rw [h1, h2]
    decide

/-- **C9**: the record fetch is scoped to the requesting principal: when the
stored record belongs to `ownerA`, any other authenticated principal
`ownerB` gets the 404 "Upload not found" response and no update is issued,
even though the record exists. -/
theorem ownership_isolation (env : Env) (db : String → Option CvRow)
    (uploadId ownerA ownerB : String) (r : CvRow) (force : Bool)
    (hdb : db uploadId = some r) (hown : r.user_id = ownerA)
    (hne : ownerA ≠ ownerB) :
    generatePrompts env db uploadId ownerB force =
      ([], .notFound "Upload not found") := by
  have hneq : ¬ (r.user_id = ownerB) := by
    rw [hown]
    exact hne
  unfold generatePrompts
  rw [hdb]
  simp [hneq]

/-- Witness for `ownership_isolation`: "bob" cannot process "alice"'s
upload. -/
theorem ownership_isolation_witness :
    generatePrompts envNoFile dbOne "u1" "bob" false =
      ([], .notFound "Upload not found") :=
  ownership_isolation envNoFile dbOne "u1" "alice" "bob"
    ⟨"alice", "processed", "path1", none, [], none, none⟩ false (by decide) rfl
    (by decide)

/-- **C4**: on a record whose status is not "uploaded", processing without
`force` returns the 400 invalid-state response and issues no update (all
columns unchanged); with `force` the handler first issues exactly the reset
update (status "uploaded", `error_msg` and `processed_at` cleared) and then
exactly one final update whose status is "processed" or "error". -/
theorem reprocess_guard_and_force (env : Env) (db : String → Option CvRow)
    (uploadId userId : String) (r : CvRow)
    (hdb : db uploadId = some r) (hown : r.user_id = userId)
    (hst : r.status ≠ "uploaded") :
    generatePrompts env db uploadId userId false =
      ([], .badRequest ("Cannot re-process a '" ++ r.status ++
        "' upload. Add ?force=true to reprocess anyway.")) ∧
    ∃ p : CvPatch,
      (generatePrompts env db uploadId userId true).1 =
        [(uploadId, resetPatch), (uploadId, p)] ∧
      (p.status = some "processed" ∨ p.status = some "error") := by
  constructor
  · unfold generatePrompts
    rw [hdb]
    simp [hown, hst]
  · by_cases hfe : env.fileExists r.stored_path = false
    · refine ⟨errorPatch ("File not found: " ++ r.stored_path) env.now, ?_, Or.inr rfl⟩
      unfold generatePrompts
      rw [hdb]
      simp [hown, hst, hfe]
    · rcases hpt : env.pdfText r.stored_path with msg | raw
      · refine ⟨errorPatch msg env.now, ?_, Or.inr rfl⟩
        unfold generatePrompts
        rw [hdb]
        simp [hown, hst, hfe, hpt]
      · by_cases htr : trimL raw.data = []
        · refine ⟨errorPatch "No content could be extracted from the PDF" env.now,
            ?_, Or.inr rfl⟩
          unfold generatePrompts
          rw [hdb]
          simp [hown, hst, hfe, hpt, htr]
        · refine ⟨processedPatch (enhanceMarkdown (repair raw))
            (generateIntelligentPrompts (enhanceMarkdown (repair raw))) env.now,
            ?_, Or.inl rfl⟩
          unfold generatePrompts
          rw [hdb]
          simp [hown, hst, hfe, hpt, htr]

/-- Witness for `reprocess_guard_and_force` on a processed record owned by
"alice". -/
theorem reprocess_guard_and_force_witness :
    generatePrompts envNoFile dbOne "u1" "alice" false =
      ([], .badRequest ("Cannot re-process a '" ++ "processed" ++
        "' upload. Add ?force=true to reprocess anyway.")) ∧
    ∃ p : CvPatch,
      (generatePrompts envNoFile dbOne "u1" "alice" true).1 =
        [("u1", resetPatch), ("u1", p)] ∧
      (p.status = some "processed" ∨ p.status = some "error") :=
  reprocess_guard_and_force envNoFile dbOne "u1" "alice"
    ⟨"alice", "processed", "path1", none, [], none, none⟩ (by decide) rfl (by decide)
